import Mathlib

/-!
Shallow embedding of the rule matching and enforcement engine of the
clobber moderation bot (src/bot.rs, src/command.rs), with theorems checking
the specification's claims against it.
-/

set_option linter.unusedVariables false

namespace Clobber

/-- Enum of available actions (src/bot.rs lines 55-63).  The derived Rust
`Ord` orders constructors by declaration order: `Ban < Kick < Mute`. -/
inductive Action where
  | Ban
  | Kick
  | Mute
deriving DecidableEq, Repr

/-- Rank of an action under the derived Rust `Ord` (declaration order). -/
def actionRank : Action → Nat
  | .Ban => 0
  | .Kick => 1
  | .Mute => 2

/-- Content of an `sh.nao.clobber.rule` state event (src/bot.rs lines 66-76). -/
structure RuleEventContent where
  entity : String
  action : Action
  reason : Option String
deriving DecidableEq, Repr

/-- Membership states of an `m.room.member` event, as in the ruma library the
source uses (non-exhaustive enum: ban, invite, join, knock, leave, custom). -/
inductive MembershipState where
  | ban
  | invite
  | join
  | knock
  | leave
  | custom (s : String)
deriving DecidableEq, Repr

/-! ## Glob matching

`is_match_entity` (src/bot.rs line 398) compiles the rule entity with
`globset::Glob::new(..).compile_matcher()`.  The model below covers the glob
constructs relevant to rule entities: `*` (multi-character wildcard), `?`
(single character), backslash escapes, and `[...]`/`[!...]` character
classes; `literal_separator` is off in the source's configuration, so `*`
matches every character.  Compilation fails on a dangling escape or an
unclosed character class. -/

/-- One compiled glob token. -/
inductive GlobTok where
  | star
  | qmark
  | lit (c : Char)
  | cls (neg : Bool) (ranges : List (Char × Char))
deriving DecidableEq, Repr

/-- Glob compilation.  The first argument is `none` outside a character class
and `some (neg, accumulated ranges)` inside one. -/
def globParseFrom : Option (Bool × List (Char × Char)) → List Char → Except String (List GlobTok)
  | none, [] => .ok []
  | none, ['\\'] => .error "dangling escape in glob"
  | none, '\\' :: c :: rest => (globParseFrom none rest).map (fun ts => .lit c :: ts)
  | none, '*' :: rest => (globParseFrom none rest).map (fun ts => .star :: ts)
  | none, '?' :: rest => (globParseFrom none rest).map (fun ts => .qmark :: ts)
  | none, '[' :: '!' :: rest => globParseFrom (some (true, [])) rest
  | none, '[' :: rest => globParseFrom (some (false, [])) rest
  | none, c :: rest => (globParseFrom none rest).map (fun ts => .lit c :: ts)
  | some _, [] => .error "unclosed character class in glob"
  | some (neg, acc), ']' :: rest =>
      (globParseFrom none rest).map (fun ts => .cls neg acc.reverse :: ts)
  | some (neg, acc), a :: '-' :: b :: rest => globParseFrom (some (neg, (a, b) :: acc)) rest
  | some (neg, acc), a :: rest => globParseFrom (some (neg, (a, a) :: acc)) rest

/-- Glob compilation of a pattern (models `globset::Glob::new`). -/
def globParse (cs : List Char) : Except String (List GlobTok) :=
  globParseFrom none cs

/-- Character class membership. -/
def inRanges (c : Char) : List (Char × Char) → Bool
  | [] => false
  | (a, b) :: rs => (a ≤ c && c ≤ b) || inRanges c rs

/-- All suffixes of a character list, longest first (a `*` consumes an
arbitrary leading segment, i.e. leaves an arbitrary suffix). -/
def suffixes : List Char → List (List Char)
  | [] => [[]]
  | c :: t => (c :: t) :: suffixes t

/-- Glob matching (models `GlobMatcher::is_match`); case sensitive, `*`
matches any sequence of characters (it succeeds on any suffix of the
remaining input). -/
def globMatch : List GlobTok → List Char → Bool
  | [], s => s.isEmpty
  | .lit c :: p, s =>
    match s with
    | [] => false
    | d :: t => c == d && globMatch p t
  | .qmark :: p, s =>
    match s with
    | [] => false
    | _ :: t => globMatch p t
  | .cls neg rs :: p, s =>
    match s with
    | [] => false
    | d :: t => (if neg then !inRanges d rs else inRanges d rs) && globMatch p t
  | .star :: p, s => (suffixes s).any (fun t => globMatch p t)

/-! ## User ids

The source goes through `ruma::UserId::try_from` (e.g. src/bot.rs line 226)
and uses `as_str()` (the full handle) and `server_name()` (the part after the
first colon).  The definitions below model that library's parsing for the
identifier shapes this repository handles (DNS-named servers with an optional
port; IPv6 literal hosts are not used anywhere in the repository or claims). -/

/-- A parsed Matrix user id. -/
structure UserId where
  localpart : String
  server_name : String
deriving DecidableEq, Repr

/-- Characters ruma accepts in a DNS server-name host. -/
def validHostChar (c : Char) : Bool := c.isAlphanum || c == '-' || c == '.'

/-- Splits a character list at the first colon. -/
def splitFirstColon : List Char → Option (List Char × List Char)
  | [] => none
  | ':' :: t => some ([], t)
  | c :: t => (splitFirstColon t).map (fun p => (c :: p.1, p.2))

/-- Server-name validation: a non-empty DNS host, optionally followed by a
colon and a non-empty numeric port. -/
def validServerName (cs : List Char) : Bool :=
  match splitFirstColon cs with
  | none => !cs.isEmpty && cs.all validHostChar
  | some (h, p) => !h.isEmpty && h.all validHostChar && !p.isEmpty && p.all Char.isDigit

/-- Printable-ASCII localpart characters (ruma accepts these, flagging
non-strict ones as historical rather than rejecting them). -/
def validLocalChar (c : Char) : Bool := 0x21 ≤ c.toNat && c.toNat ≤ 0x7E && c != ':'

/-- The full handle `@localpart:server_name` as characters (ruma `as_str`). -/
def UserId.handleChars (u : UserId) : List Char :=
  '@' :: u.localpart.data ++ ':' :: u.server_name.data

/-- The invariant `UserId.tryFrom` guarantees about the ids it returns. -/
def UserId.wf (u : UserId) : Bool :=
  !u.localpart.data.isEmpty && u.localpart.data.all validLocalChar
    && validServerName u.server_name.data

/-- Models `ruma::UserId::try_from`: requires the `@` sigil, a colon, a
non-empty printable localpart and a valid server name. -/
def UserId.tryFrom (s : String) : Except String UserId :=
  match s.data with
  | '@' :: rest =>
    match splitFirstColon rest with
    | none => .error "missing colon in user id"
    | some (lp, sn) =>
      if lp.isEmpty then .error "empty localpart in user id"
      else if !lp.all validLocalChar then .error "invalid localpart in user id"
      else if !validServerName sn then .error "invalid server name in user id"
      else .ok ⟨⟨lp⟩, ⟨sn⟩⟩
  | _ => .error "missing sigil in user id"

/-! ## Entity matching and parsing (src/bot.rs lines 390-413) -/

/-- src/bot.rs lines 396-401 (`is_match_entity`): compile the entity string as
a glob and test it against the full user id and against the server name. -/
def is_match_entity (user_id : UserId) (entity : String) : Except String Bool :=
  match globParse entity.data with
  | .error e => .error e
  | .ok glob =>
      .ok (globMatch glob user_id.handleChars || globMatch glob user_id.server_name.data)

/-- src/bot.rs lines 390-394 (`is_match_rule`). -/
def is_match_rule (user_id : UserId) (rule : RuleEventContent) : Except String Bool :=
  is_match_entity user_id rule.entity

/-- Whether the compiled entity glob matches the full handle alone (used to
state which component of the identity a successful match came from). -/
def globHandleHit (user_id : UserId) (entity : String) : Bool :=
  match globParse entity.data with
  | .ok glob => globMatch glob user_id.handleChars
  | .error _ => false

/-- Whether the compiled entity glob matches the server name alone. -/
def globServerHit (user_id : UserId) (entity : String) : Bool :=
  match globParse entity.data with
  | .ok glob => globMatch glob user_id.server_name.data
  | .error _ => false

/-- Rust `str::starts_with(char)`. -/
def startsWithChar (s : String) (c : Char) : Bool :=
  match s.data with
  | [] => false
  | d :: _ => d == c

/-- Rust `str::starts_with("@:")`. -/
def startsWithAtColon (s : String) : Bool :=
  match s.data with
  | '@' :: ':' :: _ => true
  | _ => false

/-- Rust `str::contains(char)`. -/
def containsChar (s : String) (c : Char) : Bool := s.data.contains c

/-- src/bot.rs lines 404-413 (`is_entity_server`): a string with a leading `@`
and a colon (other than right after the `@`) is a user pattern; a string
without any colon is a server pattern; everything else is invalid. -/
def is_entity_server (entity : String) : Except String Bool :=
  if startsWithChar entity '@' && containsChar entity ':' && !startsWithAtColon entity then
    .ok false
  else if !containsChar entity ':' then
    .ok true
  else
    .error "Not a valid entity"

/-! ## Conflict resolution (src/bot.rs lines 221-223) -/

/-- Stable insertion used by `sortByKey`. -/
def insertByKey (k : α → Nat) (a : α) : List α → List α
  | [] => [a]
  | b :: l => if k a ≤ k b then a :: b :: l else b :: insertByKey k a l

/-- Stable sort by a natural-number key (models Rust's stable
`slice::sort_by_key`). -/
def sortByKey (k : α → Nat) : List α → List α
  | [] => []
  | a :: l => insertByKey k a (sortByKey k l)

/-- Severity key used at src/bot.rs line 222 (`sort_by_key` on the action). -/
def ruleKey (r : RuleEventContent) : Nat := actionRank r.action

/-- The conflict resolution performed at src/bot.rs lines 221-223: stable-sort
the matching rules ascending by action severity and take the first (the spec's
`resolve`). -/
def resolve (rules : List RuleEventContent) : Option RuleEventContent :=
  (sortByKey ruleKey rules).head?

/-! ## Rule aggregation and enforcement (src/bot.rs lines 208-327) -/

/-- An `sh.nao.clobber.rule` state event: `state_key` is the entity string the
rule was stored under (see `set_rule`, src/bot.rs lines 344-350). -/
structure RuleStateEvent where
  state_key : String
  content : RuleEventContent
deriving DecidableEq, Repr

/-- How an event handler's body can fail: an `anyhow` error propagated with
`?`, or a Rust panic coming from `.unwrap()`. -/
inductive Failure where
  | err (msg : String)
  | panicked (msg : String)
deriving DecidableEq, Repr

/-- Lifts `Result::unwrap`: an error becomes a panic. -/
def unwrapE : Except String α → Except Failure α
  | .ok a => .ok a
  | .error e => .error (.panicked e)

/-- Lifts the `?` operator on an `anyhow::Result`. -/
def tryE : Except String α → Except Failure α
  | .ok a => .ok a
  | .error e => .error (.err e)

/-- The client's view of one configured rule room (one entry per room id
returned by `get_rule_rooms`): whether the bot is joined to it, whether
reading its state succeeds, and its `sh.nao.clobber.rule` state events
(`none` marks an entry that fails to deserialize as a rule event). -/
structure RuleRoom where
  joined : Bool
  state_readable : Bool
  events : List (Option RuleStateEvent)

/-- The filter closure of src/bot.rs lines 316-322: for each deserialized rule
event, `UserId::try_from(room_member.state_key).unwrap()` and
`is_match_rule(..).unwrap()` — both unwraps turn errors into panics. -/
def rulesFilter (member_key : String) :
    List RuleStateEvent → Except Failure (List RuleStateEvent)
  | [] => .ok []
  | e :: es => do
    let uid ← unwrapE (UserId.tryFrom member_key)
    let b ← unwrapE (is_match_rule uid e.content)
    let rest ← rulesFilter member_key es
    pure (if b then e :: rest else rest)

/-- src/bot.rs lines 297-327 (`get_rules`): iterate the configured rule rooms;
skip a room the client is not joined to (`continue`); `.unwrap()` — a panic —
if reading its state fails; drop entries that fail to deserialize
(`filter_map .. .ok()`); keep the events whose rule matches the member,
accumulating across rooms in order. -/
def get_rules (member_key : String) : List RuleRoom → Except Failure (List RuleStateEvent)
  | [] => .ok []
  | room :: rs =>
    if !room.joined then get_rules member_key rs
    else if !room.state_readable then .error (.panicked "get_state_events failed")
    else do
      let kept ← rulesFilter member_key (room.events.filterMap id)
      let rest ← get_rules member_key rs
      pure (kept ++ rest)

/-- An `m.room.member` state event as `check_member` sees it: the state key is
the affected member's user id string, plus the membership state. -/
structure MemberEvent where
  state_key : String
  membership : MembershipState
deriving DecidableEq, Repr

/-- A protocol mutation issued by `apply_rule` (src/bot.rs lines 237-276):
`ban_user`, `kick_user`, or the power-level write implementing mute. -/
inductive EnforcementCall where
  | banUser (user : UserId) (reason : Option String)
  | kickUser (user : UserId) (reason : Option String)
  | mutePowerLevel (user : UserId)
deriving DecidableEq, Repr

/-- The protocol call `apply_rule` makes for each action (mute's power-level
read-modify-write is abstracted to the state write it issues on success; no
claim depends on its failure modes). -/
def apply_rule_call (user : UserId) (action : Action) (reason : Option String) :
    EnforcementCall :=
  match action with
  | .Ban => .banUser user reason
  | .Kick => .kickUser user reason
  | .Mute => .mutePowerLevel user

/-- src/bot.rs lines 211-234 (`check_member`): on invite/join/knock, fetch the
matching rules, stable-sort them by action severity, and for the first rule
event (if any) parse that rule event's `state_key` — the inner `event` binding
shadows the member event, so this is the entity string the rule is keyed by —
as the user to act on, applying the rule's action and reason.  Returns the
enforcement calls issued. -/
def check_member (ev : MemberEvent) (rooms : List RuleRoom) :
    Except Failure (List EnforcementCall) :=
  if ev.membership = .invite ∨ ev.membership = .join ∨ ev.membership = .knock then do
    let events ← get_rules ev.state_key rooms
    let sorted := sortByKey (fun e => actionRank e.content.action) events
    match sorted.head? with
    | none => pure []
    | some e => do
      let uid ← tryE (UserId.tryFrom e.state_key)
      pure [apply_rule_call uid e.content.action e.content.reason]
  else pure []

/-! ## Command dispatch (src/command.rs) -/

/-- Observable effect of one command invocation. -/
inductive CmdEffect where
  | replyHelp
  | replyUnknown
  | replyInvalidArgs
  | setRule (list : String) (entity : String) (action : Action) (reason : Option String)
deriving DecidableEq, Repr

/-- src/command.rs lines 66-93 (`ban`): arguments `<list> <entity> [reason]`;
wrong arity replies with an error; otherwise writes a Ban rule via
`set_rule`. -/
def ban_command (args : List String) : CmdEffect :=
  match args with
  | [list, entity] => .setRule list entity .Ban none
  | [list, entity, reason] => .setRule list entity .Ban (some reason)
  | _ => .replyInvalidArgs

/-- src/command.rs lines 95-122 (`mute`): same shape as `ban` but writes a
Mute rule.  No call site in the repository reaches this function. -/
def mute_command (args : List String) : CmdEffect :=
  match args with
  | [list, entity] => .setRule list entity .Mute none
  | [list, entity, reason] => .setRule list entity .Mute (some reason)
  | _ => .replyInvalidArgs

/-- src/command.rs lines 21-40 (`handle_command`): fewer than two tokens sends
the help text; otherwise dispatch on the base command — only "help" and "ban"
have match arms, everything else falls to the unknown-command reply. -/
def handle_command (commands : List String) : CmdEffect :=
  match commands with
  | _ :: base :: args =>
    if base = "help" then .replyHelp
    else if base = "ban" then ban_command args
    else .replyUnknown
  | _ => .replyHelp

/-! ## Invite acceptance (src/bot.rs lines 120-206) -/

/-- Result of the invite-handling retry loop: how many join attempts were
made, the successive sleep delays in seconds, and whether the room was
joined. -/
structure BackoffResult where
  attempts : Nat
  sleeps : List Nat
  joined : Bool
deriving DecidableEq, Repr

/-- src/bot.rs lines 187-202: the retry loop of `accept_invite`.  `attempt i`
says whether the i-th call to `accept_invitation` succeeds.  On failure the
loop sleeps `delay` seconds, doubles `delay`, and gives up once it exceeds
3600.  `fuel` bounds the recursion; from the source's starting delay of 2 the
loop runs at most 11 iterations, so any fuel of at least 12 gives the loop's
exact behavior (see `backoffAux_fuel_irrelevant`). -/
def backoffAux (attempt : Nat → Bool) : Nat → Nat → Nat → BackoffResult
  | 0, _, _ => ⟨0, [], false⟩
  | fuel + 1, i, delay =>
    if attempt i then ⟨1, [], true⟩
    else if delay * 2 > 3600 then ⟨1, [delay], false⟩
    else
      let r := backoffAux attempt fuel (i + 1) (delay * 2)
      ⟨r.attempts + 1, delay :: r.sleeps, r.joined⟩

/-- Terminal states of the invite handling. -/
inductive InviteOutcome where
  | notInvitedRoom
  | rejected
  | joinedRoom
  | abandoned
  | ignored
deriving DecidableEq, Repr

/-- What one run of the invite handler did. -/
structure InviteResult where
  joinAttempts : Nat
  sleeps : List Nat
  outcome : InviteOutcome
deriving DecidableEq, Repr

/-- src/bot.rs lines 164-206 (`accept_invite`): nothing happens unless the
room is in the invited state; an inviter outside `allow_invites` is logged and
dropped with no join attempt; otherwise the backoff loop runs with starting
delay 2.  The source function always returns `Ok`. -/
def accept_invite (is_invited_room : Bool) (allow_invites : List String)
    (sender : String) (attempt : Nat → Bool) : InviteResult :=
  if !is_invited_room then ⟨0, [], .notInvitedRoom⟩
  else if !(allow_invites.any (fun user => user == sender)) then ⟨0, [], .rejected⟩
  else
    let r := backoffAux attempt 12 0 2
    ⟨r.attempts, r.sleeps, if r.joined then .joinedRoom else .abandoned⟩

/-- src/bot.rs lines 121-135 (`on_stripped_state_member`): calls
`accept_invite` only when the event is an invite whose state key is the bot's
own user id. -/
def on_stripped_state_member (membership : MembershipState) (state_key own_id : String)
    (is_invited_room : Bool) (allow_invites : List String) (sender : String)
    (attempt : Nat → Bool) : InviteResult :=
  if membership = .invite ∧ state_key = own_id then
    accept_invite is_invited_room allow_invites sender attempt
  else ⟨0, [], .ignored⟩


/-! ## Helper lemmas about the stable sort -/

theorem insertByKey_perm (k : α → Nat) (a : α) :
    ∀ l : List α, (insertByKey k a l).Perm (a :: l) := by
  intro l
  induction l with
  | nil => simp [insertByKey]
  | cons b t ih =>
    simp only [insertByKey]
    split
    · exact List.Perm.refl _
    · exact ((ih.cons b).trans (List.Perm.swap a b t))

theorem sortByKey_perm (k : α → Nat) :
    ∀ l : List α, (sortByKey k l).Perm l := by
  intro l
  induction l with
  | nil => simp [sortByKey]
  | cons a t ih =>
    exact (insertByKey_perm k a (sortByKey k t)).trans (ih.cons a)

theorem insertByKey_pairwise (k : α → Nat) (a : α) :
    ∀ l : List α, l.Pairwise (fun x y => k x ≤ k y) →
      (insertByKey k a l).Pairwise (fun x y => k x ≤ k y) := by
  intro l
  induction l with
  | nil => intro _; simp [insertByKey]
  | cons b t ih =>
    intro hp
    rcases List.pairwise_cons.mp hp with ⟨hb, ht⟩
    simp only [insertByKey]
    split
    · rename_i hab
      refine List.pairwise_cons.mpr ⟨?_, hp⟩
      intro x hx
      rcases List.mem_cons.mp hx with hxb | hxt
      · subst hxb; exact hab
      · exact le_trans hab (hb x hxt)
    · rename_i hab
      have hba : k b ≤ k a := le_of_not_le hab
      refine List.pairwise_cons.mpr ⟨?_, ih ht⟩
      intro x hx
      rcases List.mem_cons.mp ((insertByKey_perm k a t).mem_iff.mp hx) with hxa | hxt
      · subst hxa; exact hba
      · exact hb x hxt

theorem sortByKey_pairwise (k : α → Nat) :
    ∀ l : List α, (sortByKey k l).Pairwise (fun x y => k x ≤ k y) := by
  intro l
  induction l with
  | nil => simp [sortByKey]
  | cons a t ih => exact insertByKey_pairwise k a _ ih

theorem head_key_min (k : α → Nat) (h : α) (t : List α)
    (hp : (h :: t).Pairwise (fun x y => k x ≤ k y)) :
    ∀ x ∈ h :: t, k h ≤ k x := by
  intro x hx
  rcases List.mem_cons.mp hx with hxh | hxt
  · subst hxh; exact le_refl _
  · exact (List.pairwise_cons.mp hp).1 x hxt

/-- Permuting the input of the key-based stable sort does not change the key
of the first element (both heads are key-minimal). -/
theorem sorted_perm_head_key (k : α → Nat) (l1 l2 : List α) (hp : l1.Perm l2) :
    ((sortByKey k l1).head?).map k = ((sortByKey k l2).head?).map k := by
  have hs : (sortByKey k l1).Perm (sortByKey k l2) :=
    ((sortByKey_perm k l1).trans hp).trans (sortByKey_perm k l2).symm
  cases h1 : sortByKey k l1 with
  | nil =>
    rw [h1] at hs
    have h2 : sortByKey k l2 = [] := hs.symm.eq_nil
    rw [h2]
  | cons a t1 =>
    cases h2 : sortByKey k l2 with
    | nil =>
      rw [h1, h2] at hs
      exact absurd hs.eq_nil (by simp)
    | cons b t2 =>
      rw [h1, h2] at hs
      have hp1 := sortByKey_pairwise k l1
      have hp2 := sortByKey_pairwise k l2
      rw [h1] at hp1
      rw [h2] at hp2
      have hab : k a ≤ k b := head_key_min k a t1 hp1 b (hs.symm.mem_iff.mp (by simp))
      have hba : k b ≤ k a := head_key_min k b t2 hp2 a (hs.mem_iff.mp (by simp))
      simp [Nat.le_antisymm hab hba]

theorem actionRank_inj : ∀ a b : Action, actionRank a = actionRank b → a = b := by
  intro a b h
  cases a <;> cases b <;> first
    | rfl
    | (exfalso; simp [actionRank] at h)

/-! ## Helper lemmas about the invite backoff loop -/

theorem backoffAux_succ (attempt : Nat → Bool) (fuel i delay : Nat) :
    backoffAux attempt (fuel + 1) i delay =
      if attempt i then ⟨1, [], true⟩
      else if delay * 2 > 3600 then ⟨1, [delay], false⟩
      else
        let r := backoffAux attempt fuel (i + 1) (delay * 2)
        ⟨r.attempts + 1, delay :: r.sleeps, r.joined⟩ := rfl

theorem backoffAux_congr (attempt : Nat → Bool) (h : ∀ j, attempt j = false) :
    ∀ fuel i j delay,
      backoffAux attempt fuel i delay = backoffAux (fun _ => false) fuel j delay := by
  intro fuel
  induction fuel with
  | zero => intro i j delay; rfl
  | succ n ih =>
    intro i j delay
    rw [backoffAux_succ, backoffAux_succ]
    simp only [h i, Bool.false_eq_true, if_false]
    split
    · rfl
    · rw [ih (i + 1) (j + 1)]

/-- Any fuel that lets the delay pass 3600 gives the same result: 12 is enough
from the source's starting delay of 2 (since 2 * 2 ^ 11 = 4096 > 3600), so the
entry point `accept_invite` computes the source loop exactly. -/
theorem backoffAux_fuel_irrelevant (attempt : Nat → Bool) :
    ∀ fuel m i delay, 3600 < delay * 2 ^ fuel →
      backoffAux attempt (fuel + 1) i delay = backoffAux attempt (fuel + 1 + m) i delay := by
  intro fuel
  induction fuel with
  | zero =>
    intro m i delay hd
    simp only [pow_zero, mul_one] at hd
    rw [show 0 + 1 + m = m + 1 from by omega]
    rw [backoffAux_succ attempt 0 i delay, backoffAux_succ attempt m i delay]
    split
    · rfl
    · have hgt : delay * 2 > 3600 := by omega
      simp [hgt]
  | succ n ih =>
    intro m i delay hd
    have hstep : 3600 < delay * 2 * 2 ^ n := by
      have hr : delay * 2 * 2 ^ n = delay * 2 ^ (n + 1) := by ring
      omega
    rw [show n + 1 + 1 + m = (n + 1 + m) + 1 from by omega]
    rw [backoffAux_succ attempt (n + 1) i delay, backoffAux_succ attempt (n + 1 + m) i delay]
    split
    · rfl
    · split
      · rfl
      · rw [ih m (i + 1) (delay * 2) hstep]


/-! ## Helper lemmas about glob matching -/

theorem suffixes_any_isEmpty : ∀ s : List Char, ((suffixes s).any fun t => t.isEmpty) = true := by
  intro s
  induction s with
  | nil => rfl
  | cons c t ih => simp [suffixes, List.any_cons] at ih ⊢; exact ih

theorem globMatch_star_any : ∀ s : List Char, globMatch [.star] s = true := by
  intro s
  simp [globMatch, suffixes_any_isEmpty]

theorem globMatch_scs :
    ∀ s : List Char, (globMatch [.star, .lit ':', .star] s = true ↔ ':' ∈ s) := by
  intro s
  induction s with
  | nil => simp [globMatch, suffixes]
  | cons c t ih =>
    simp only [globMatch, suffixes, List.any_cons, Bool.or_eq_true, List.mem_cons,
      suffixes_any_isEmpty, Bool.and_true, beq_iff_eq] at ih ⊢
    constructor
    · rintro (h | h)
      · exact Or.inl h
      · exact Or.inr (ih.mp h)
    · rintro (h | h)
      · exact Or.inl h
      · exact Or.inr (ih.mpr h)

theorem globMatch_litToks :
    ∀ (w s : List Char), globMatch (w.map GlobTok.lit) s = decide (w = s) := by
  intro w
  induction w with
  | nil => intro s; cases s <;> simp [globMatch]
  | cons c w ih =>
    intro s
    cases s with
    | nil => simp [globMatch]
    | cons d t =>
      simp only [List.map_cons, globMatch, ih]
      rw [Bool.eq_iff_iff]
      simp [List.cons.injEq]

theorem globParse_at_cons (t : List Char) :
    globParse ('@' :: t) = (globParseFrom none t).map (fun ts => GlobTok.lit '@' :: ts) := rfl

theorem splitFirstColon_cons (c : Char) (t : List Char) :
    splitFirstColon (c :: t) =
      if c = ':' then some ([], t)
      else (splitFirstColon t).map (fun p => (c :: p.1, p.2)) := by
  by_cases hc : c = ':'
  · subst hc; simp [splitFirstColon]
  · simp [splitFirstColon, hc]

theorem validServerName_head (cs : List Char) (h : validServerName cs = true) :
    ∃ c t, cs = c :: t ∧ validHostChar c = true := by
  cases cs with
  | nil => simp [validServerName, splitFirstColon] at h
  | cons c t =>
    refine ⟨c, t, rfl, ?_⟩
    unfold validServerName at h
    rw [splitFirstColon_cons] at h
    by_cases hc : c = ':'
    · simp [hc] at h
    · rw [if_neg hc] at h
      cases hsp : splitFirstColon t with
      | none =>
        rw [hsp] at h
        simp [List.all_cons] at h
        tauto
      | some pr =>
        rw [hsp] at h
        simp [List.all_cons] at h
        tauto


theorem wf_validServerName (u : UserId) (h : u.wf = true) :
    validServerName u.server_name.data = true := by
  unfold UserId.wf at h
  simp [Bool.and_eq_true] at h
  tauto

/-! ## Claim theorems -/

/-- C1: the claim says the chosen enforcement action is applied to the member
whose membership changed.  The code instead parses the selected rule event's
`state_key` — the entity string — as the user to act on (the inner `event`
binding in `check_member` shadows the member event).  At a Join of
`@spam:evil.tld` with a matching rule keyed `@spam*:evil.tld`, exactly one ban
is issued, but against `@spam*:evil.tld`, not the member; with the spec's own
example entity `*.evil.tld` the rule does not even match the identity (the
glob requires a dot before `evil.tld`), so nothing is enforced; and with a
matching glob entity `*:evil.tld` the user-id parse fails and `check_member`
returns an error (which its caller unwraps into a panic). -/
theorem c1_check_member_bans_entity_key :
    check_member ⟨"@spam:evil.tld", .join⟩
        [⟨true, true, [some ⟨"@spam*:evil.tld", ⟨"@spam*:evil.tld", .Ban, some "spam"⟩⟩]⟩]
      = .ok [.banUser ⟨"spam*", "evil.tld"⟩ (some "spam")]
    ∧ UserId.tryFrom "@spam:evil.tld" = .ok ⟨"spam", "evil.tld"⟩
    ∧ (UserId.mk "spam*" "evil.tld") ≠ UserId.mk "spam" "evil.tld"
    ∧ check_member ⟨"@spam:evil.tld", .join⟩
        [⟨true, true, [some ⟨"*.evil.tld", ⟨"*.evil.tld", .Ban, some "spam"⟩⟩]⟩] = .ok []
    ∧ check_member ⟨"@spam:evil.tld", .join⟩
        [⟨true, true, [some ⟨"*:evil.tld", ⟨"*:evil.tld", .Ban, some "spam"⟩⟩]⟩]
      = .error (.err "missing sigil in user id") :=
  ⟨rfl, rfl, by decide, rfl, rfl⟩

/-- C2 counterexample: two distinct rules of equal severity are returned
differently for two orderings of the same multiset, so "given the same
multiset of rules, the same rule is always chosen" fails on the code. -/
theorem c2_resolve_multiset_counterexample :
    [(⟨"X", .Ban, some "x"⟩ : RuleEventContent), ⟨"Y", .Ban, none⟩].Perm
        [⟨"Y", .Ban, none⟩, ⟨"X", .Ban, some "x"⟩]
    ∧ resolve [⟨"X", .Ban, some "x"⟩, ⟨"Y", .Ban, none⟩] = some ⟨"X", .Ban, some "x"⟩
    ∧ resolve [⟨"Y", .Ban, none⟩, ⟨"X", .Ban, some "x"⟩] = some ⟨"Y", .Ban, none⟩
    ∧ (⟨"X", .Ban, some "x"⟩ : RuleEventContent) ≠ ⟨"Y", .Ban, none⟩ :=
  ⟨List.Perm.swap _ _ _, rfl, rfl, by decide⟩

/-- C2 (amended): `resolve` sorts ascending by `Ban < Kick < Mute` and returns
the first rule; it returns nothing on the empty list; on
`[{entity: X, action: Mute}, {entity: X, action: Ban}]` it returns the Ban
rule; and while the specific rule chosen among equal-severity candidates
depends on input order, the chosen *action* is invariant under permutation of
the input (and the choice is a pure function of the input list). -/
theorem c2_resolve_amended :
    resolve [] = none
    ∧ resolve [⟨"X", .Mute, none⟩, ⟨"X", .Ban, none⟩] = some ⟨"X", .Ban, none⟩
    ∧ ∀ l1 l2 : List RuleEventContent, l1.Perm l2 →
        (resolve l1).map (fun r => r.action) = (resolve l2).map (fun r => r.action) := by
  refine ⟨rfl, rfl, ?_⟩
  intro l1 l2 hp
  have hk := sorted_perm_head_key ruleKey l1 l2 hp
  unfold resolve
  cases h1 : (sortByKey ruleKey l1).head? with
  | none =>
    cases h2 : (sortByKey ruleKey l2).head? with
    | none => rfl
    | some b => rw [h1, h2] at hk; simp at hk
  | some a =>
    cases h2 : (sortByKey ruleKey l2).head? with
    | none => rw [h1, h2] at hk; simp at hk
    | some b =>
      rw [h1, h2] at hk
      have hk2 : ruleKey a = ruleKey b := by simpa using hk
      have hact : a.action = b.action := actionRank_inj _ _ hk2
      simp [hact]

/-- C2 witness: the action-invariance applied to a concrete permutation. -/
theorem c2_resolve_amended_witness :
    (resolve [⟨"X", .Ban, some "x"⟩, ⟨"Y", .Ban, none⟩]).map (fun r => r.action)
      = (resolve [⟨"Y", .Ban, none⟩, ⟨"X", .Ban, some "x"⟩]).map (fun r => r.action) :=
  c2_resolve_amended.2.2 _ _ (List.Perm.swap _ _ _)

/-- C3 counterexample: the claim says matching the invalid entity `*:*`
against any identity yields an error, never true; but `*:*` is a well-formed
glob and `is_match_entity` matches it against `@foobar:badserver.tld`
successfully, returning true. -/
theorem c3_invalid_entity_counterexample :
    is_match_entity ⟨"foobar", "badserver.tld"⟩ "*:*" = .ok true := rfl

/-- C3 (amended): `is_match_entity` returns a typed error only when the entity
fails to compile as a glob (e.g. a dangling escape); entities that are invalid
for `is_entity_server` but are well-formed globs do not error: for every valid
user id, `*:*` matches (the full handle always contains a colon) and
`user:domain.tld` matches nothing (it can equal neither the `@`-led handle nor
a valid server name), returning false. -/
theorem c3_matching_amended (u : UserId) (hwf : u.wf = true) :
    is_match_entity u "*:*" = .ok true
    ∧ is_match_entity u "user:domain.tld" = .ok false
    ∧ is_match_entity u "\\" = .error "dangling escape in glob" := by
  refine ⟨?_, ?_, rfl⟩
  · unfold is_match_entity
    rw [show globParse "*:*".data = .ok [.star, .lit ':', .star] from rfl]
    show Except.ok (globMatch [.star, .lit ':', .star] u.handleChars
        || globMatch [.star, .lit ':', .star] u.server_name.data) = Except.ok true
    have hmem : ':' ∈ u.handleChars := by
      simp [UserId.handleChars]
    rw [(globMatch_scs u.handleChars).mpr hmem]
    rfl
  · unfold is_match_entity
    rw [show globParse "user:domain.tld".data
        = .ok ("user:domain.tld".data.map GlobTok.lit) from rfl]
    show Except.ok (globMatch ("user:domain.tld".data.map GlobTok.lit) u.handleChars
        || globMatch ("user:domain.tld".data.map GlobTok.lit) u.server_name.data)
      = Except.ok false
    rw [globMatch_litToks, globMatch_litToks]
    have hne1 : ¬("user:domain.tld".data = u.handleChars) := by
      intro he
      rw [show UserId.handleChars u
          = '@' :: (u.localpart.data ++ ':' :: u.server_name.data) from rfl] at he
      rw [show "user:domain.tld".data = 'u' :: "ser:domain.tld".data from rfl] at he
      injection he with hhead htail
      exact absurd hhead (by decide)
    have hne2 : ¬("user:domain.tld".data = u.server_name.data) := by
      intro he
      have hv : validServerName u.server_name.data = true := wf_validServerName u hwf
      rw [← he] at hv
      exact absurd hv (by decide)
    rw [decide_eq_false hne1, decide_eq_false hne2]
    rfl

/-- C3 witness: the amended claim at a concrete valid user id. -/
theorem c3_matching_amended_witness :
    is_match_entity ⟨"foobar", "badserver.tld"⟩ "*:*" = .ok true
    ∧ is_match_entity ⟨"foobar", "badserver.tld"⟩ "user:domain.tld" = .ok false
    ∧ is_match_entity ⟨"foobar", "badserver.tld"⟩ "\\" = .error "dangling escape in glob" :=
  c3_matching_amended ⟨"foobar", "badserver.tld"⟩ (by decide)

/-- C4 counterexample: `*f*` is classified as a server pattern, and it matches
the identity `@foo:bar.tld` even though its glob does not match the origin
server name `bar.tld` — the match comes from the full handle, refuting
"a server-pattern matches if and only if its glob matches the origin-server
name (never via the full handle)". -/
theorem c4_server_pattern_counterexample :
    is_entity_server "*f*" = .ok true
    ∧ is_match_entity ⟨"foo", "bar.tld"⟩ "*f*" = .ok true
    ∧ globServerHit ⟨"foo", "bar.tld"⟩ "*f*" = false :=
  ⟨rfl, rfl, rfl⟩

/-- C4 (amended): the matcher tests the compiled glob against the full handle
and against the server name and succeeds if either hits.  For a user pattern
(leading `@`) and a valid user id this reduces to the full handle alone, since
a valid server name cannot start with `@`; a server pattern, however, can also
match via the full handle.  All the claim's examples hold. -/
theorem c4_matching_semantics_amended :
    (∀ (u : UserId) (e : String) (b : Bool), u.wf = true → startsWithChar e '@' = true →
        is_match_entity u e = .ok b → b = globHandleHit u e)
    ∧ is_match_entity ⟨"foobar", "baz.badserver.tld"⟩ "*.badserver.tld" = .ok true
    ∧ is_match_entity ⟨"foobar", "badserver.tld"⟩ "badserver.tld" = .ok true
    ∧ is_match_entity ⟨"foobar", "goodserver.tld"⟩ "badserver.tld" = .ok false
    ∧ is_match_entity ⟨"foobar", "badserver.tld"⟩ "@foo*:badserver.tld" = .ok true
    ∧ is_match_entity ⟨"bob", "badserver.tld"⟩ "@foo*:badserver.tld" = .ok false
    ∧ is_match_entity ⟨"foo", "bar.tld"⟩ "*f*" = .ok true
    ∧ globServerHit ⟨"foo", "bar.tld"⟩ "*f*" = false := by
  refine ⟨?_, rfl, rfl, rfl, rfl, rfl, rfl, rfl⟩
  intro u e b hwf hstart hok
  have hex : ∃ rest, e.data = '@' :: rest := by
    unfold startsWithChar at hstart
    cases hdata : e.data with
    | nil => rw [hdata] at hstart; simp at hstart
    | cons d t =>
      rw [hdata] at hstart
      simp at hstart
      subst hstart
      exact ⟨t, rfl⟩
  obtain ⟨rest, hrest⟩ := hex
  unfold is_match_entity at hok
  rw [hrest, globParse_at_cons] at hok
  unfold globHandleHit
  rw [hrest, globParse_at_cons]
  cases hpf : globParseFrom none rest with
  | error msg => rw [hpf] at hok; simp [Except.map] at hok
  | ok ts =>
    rw [hpf] at hok
    simp only [Except.map, Except.ok.injEq] at hok ⊢
    have hsrv : globMatch (GlobTok.lit '@' :: ts) u.server_name.data = false := by
      obtain ⟨c, t, hct, hhc⟩ := validServerName_head _ (wf_validServerName u hwf)
      rw [hct]
      show (('@' == c) && globMatch ts t) = false
      have hcne : ('@' == c) = false := by
        rw [beq_eq_false_iff_ne]
        intro hc
        subst hc
        exact absurd hhc (by decide)
      rw [hcne]
      rfl
    rw [hsrv, Bool.or_false] at hok
    exact hok.symm

/-- C4 witness: the user-pattern direction at a concrete identity. -/
theorem c4_matching_semantics_amended_witness :
    (true : Bool) = globHandleHit ⟨"foobar", "badserver.tld"⟩ "@foo*:badserver.tld" :=
  c4_matching_semantics_amended.1 ⟨"foobar", "badserver.tld"⟩ "@foo*:badserver.tld" true
    (by decide) rfl rfl

/-- C5: the claim says `mute` is a recognized command dispatching to
`set_rule` with action Mute.  The dispatcher's match has no "mute" arm, so a
well-formed mute command falls through to the unknown-command reply; the
repository's `mute` function — which would produce exactly the claimed
effect — is unreachable. -/
theorem c5_mute_not_dispatched :
    handle_command ["!clobber", "mute", "spam", "@user:domain.tld"] = .replyUnknown
    ∧ mute_command ["spam", "@user:domain.tld"]
        = .setRule "spam" "@user:domain.tld" .Mute none :=
  ⟨rfl, rfl⟩

/-- C6 counterexample: a joined rule room whose state read fails does not get
skipped — `get_rules` unwraps the failed read into a panic, refuting "a rule
room whose state is unreadable is logged and skipped" and "no such failure
panics". -/
theorem c6_unreadable_room_counterexample :
    get_rules "@spam:evil.tld" [⟨true, false, []⟩]
      = .error (.panicked "get_state_events failed") := rfl

/-- C6 (amended): aggregation skips a rule room the bot is not joined to
(continuing with the remaining sources) and skips each non-deserializable rule
entry individually; but a joined room whose state is unreadable makes
`get_rules` panic via `.unwrap()`, as does a rule entry whose entity fails to
compile as a glob during matching. -/
theorem c6_degradation_amended :
    (∀ (b : Bool) (evs : List (Option RuleStateEvent)) (key : String) (rs : List RuleRoom),
        get_rules key (⟨false, b, evs⟩ :: rs) = get_rules key rs)
    ∧ get_rules "@spam:evil.tld"
        [⟨true, true, [none, some ⟨"@spam:evil.tld", ⟨"@spam:evil.tld", .Kick, none⟩⟩]⟩]
        = .ok [⟨"@spam:evil.tld", ⟨"@spam:evil.tld", .Kick, none⟩⟩]
    ∧ get_rules "@spam:evil.tld" [⟨true, false, []⟩]
        = .error (.panicked "get_state_events failed")
    ∧ get_rules "@spam:evil.tld" [⟨true, true, [some ⟨"\\", ⟨"\\", .Ban, none⟩⟩]⟩]
        = .error (.panicked "dangling escape in glob") :=
  ⟨fun b evs key rs => rfl, rfl, rfl, rfl⟩

/-- C7: when the inviter is authorized and every join attempt fails, the
backoff loop starts at delay 2, doubles after each failure, and abandons once
the delay would exceed 3600: exactly 11 failed attempts with sleeps
2, 4, ..., 2048, ending in the abandoned state with no further retries. -/
theorem c7_backoff_abandons (allow_invites : List String) (sender : String)
    (attempt : Nat → Bool)
    (hmem : allow_invites.any (fun user => user == sender) = true)
    (hfail : ∀ i, attempt i = false) :
    accept_invite true allow_invites sender attempt
      = ⟨11, [2, 4, 8, 16, 32, 64, 128, 256, 512, 1024, 2048], .abandoned⟩ := by
  unfold accept_invite
  rw [hmem]
  rw [backoffAux_congr attempt hfail 12 0 0 2]
  rfl

/-- C7 witness: the abandon run at a concrete allow-list and sender. -/
theorem c7_backoff_abandons_witness :
    accept_invite true ["@admin:home.server"] "@admin:home.server" (fun _ => false)
      = ⟨11, [2, 4, 8, 16, 32, 64, 128, 256, 512, 1024, 2048], .abandoned⟩ :=
  c7_backoff_abandons _ _ _ rfl (fun i => rfl)

/-- C8: an invite event addressed to the bot's own identity whose sender is
outside the allow-list produces no join attempt and no sleep, and (when the
room is in the invited state) terminates in the rejected state; the handler
returns successfully in all cases. -/
theorem c8_unauthorized_invite_rejected (membership : MembershipState)
    (state_key own_id : String) (is_invited_room : Bool) (allow_invites : List String)
    (sender : String) (attempt : Nat → Bool)
    (hself : membership = .invite ∧ state_key = own_id)
    (hallow : allow_invites.any (fun user => user == sender) = false) :
    (on_stripped_state_member membership state_key own_id is_invited_room allow_invites
        sender attempt).joinAttempts = 0
    ∧ (on_stripped_state_member membership state_key own_id is_invited_room allow_invites
        sender attempt).sleeps = []
    ∧ (is_invited_room = true →
        (on_stripped_state_member membership state_key own_id is_invited_room allow_invites
          sender attempt).outcome = .rejected) := by
  unfold on_stripped_state_member
  rw [if_pos hself]
  unfold accept_invite
  rw [hallow]
  cases is_invited_room with
  | false => exact ⟨rfl, rfl, fun h => absurd h (by decide)⟩
  | true => exact ⟨rfl, rfl, fun _ => rfl⟩

/-- C8 witness: a concrete unauthorized invite. -/
theorem c8_unauthorized_invite_rejected_witness :
    (on_stripped_state_member .invite "@bot:hs.tld" "@bot:hs.tld" true ["@admin:hs.tld"]
        "@evil:hs.tld" (fun _ => false)).joinAttempts = 0
    ∧ (on_stripped_state_member .invite "@bot:hs.tld" "@bot:hs.tld" true ["@admin:hs.tld"]
        "@evil:hs.tld" (fun _ => false)).sleeps = []
    ∧ ((true : Bool) = true →
        (on_stripped_state_member .invite "@bot:hs.tld" "@bot:hs.tld" true ["@admin:hs.tld"]
          "@evil:hs.tld" (fun _ => false)).outcome = .rejected) :=
  c8_unauthorized_invite_rejected _ _ _ _ _ _ _ ⟨rfl, rfl⟩ rfl

/-- C9 counterexample: the string `@foo` has a leading `@` yet is classified
as a server pattern, refuting "no string with a leading `@` is classified as a
server pattern". -/
theorem c9_entity_parsing_counterexample :
    is_entity_server "@foo" = .ok true := rfl

/-- C9 (amended): all the claim's example classifications hold, and no string
with a leading `@` that also contains a colon is classified as a server
pattern; a `@`-led string without any colon (such as `@foo`), however, is
classified as a server pattern by the code. -/
theorem c9_entity_parsing_amended :
    is_entity_server "@user:domain.tld" = .ok false
    ∧ is_entity_server "domain.tld" = .ok true
    ∧ is_entity_server "*.domain.tld" = .ok true
    ∧ is_entity_server "tld" = .ok true
    ∧ is_entity_server "user:domain.tld" = .error "Not a valid entity"
    ∧ is_entity_server "domain.tld:8448" = .error "Not a valid entity"
    ∧ ∀ s : String, startsWithChar s '@' = true → containsChar s ':' = true →
        is_entity_server s ≠ .ok true := by
  refine ⟨rfl, rfl, rfl, rfl, rfl, rfl, ?_⟩
  intro s h1 h2
  unfold is_entity_server
  rw [h1, h2]
  cases hac : startsWithAtColon s <;> simp [hac]

/-- C9 witness: the universal part at a concrete user pattern. -/
theorem c9_entity_parsing_amended_witness :
    is_entity_server "@user:domain.tld" ≠ .ok true :=
  c9_entity_parsing_amended.2.2.2.2.2.2 "@user:domain.tld" rfl rfl

/-- C10: a membership event whose state is not Invite, Join or Knock produces
no rule fetch and no enforcement call — `check_member` returns the empty call
list for every possible rule-room environment, including ones whose fetch
would panic. -/
theorem c10_membership_gating (ev : MemberEvent) (rooms : List RuleRoom)
    (h1 : ev.membership ≠ .invite) (h2 : ev.membership ≠ .join)
    (h3 : ev.membership ≠ .knock) :
    check_member ev rooms = .ok [] := by
  have hc : ¬(ev.membership = .invite ∨ ev.membership = .join ∨ ev.membership = .knock) := by
    rintro (h | h | h)
    · exact h1 h
    · exact h2 h
    · exact h3 h
  unfold check_member
  rw [if_neg hc]
  rfl

/-- C10 witness: a Leave event against an environment whose fetch would
panic. -/
theorem c10_membership_gating_witness :
    check_member ⟨"@spam:evil.tld", .leave⟩ [⟨true, false, []⟩] = .ok [] :=
  c10_membership_gating _ _ (by decide) (by decide) (by decide)

end Clobber
